import Mathlib

/-
Verification of the automation rules engine of ivan-ads-manager
(src/automation/engine.ts, AutomationEngine class).

Shallow embedding conventions:
- JavaScript numbers (spend, metric values, thresholds) are modelled as Rat;
  checkInterval as Int (so that zero and negative values keep their JS
  truthiness: 0 is falsy, any nonzero integer is truthy).
- ISO timestamp strings (createdAt, lastRunAt) are modelled as Nat instants
  ordered as the wall clock; new Date().toISOString() at instant t is t.
- External collaborators (MetaApiClient.getCampaigns / getInsights /
  updateCampaign) are oracles supplied in a FireEnv record; a call that
  throws is Except.error ().
- An insights record maps field names to the result of
  parseFloat(record[field]): some v when the field parses to the number v,
  none when the field is absent or parses to NaN.  The JS expression
  parseFloat(x) || 0 therefore becomes lookup-with-default-0.
- A thrown JS exception that the source lets escape to the caller is made
  visible as an explicit result field; where the source wraps the body in
  try/catch and only logs, no exception escapes and the field is none.
-/

namespace Automation

/- Data model: AutomationRule and its parts (engine.ts interface AutomationRule). -/

structure Trigger where
  type : String
  cron : Option String := none
  metric : Option String := none
  operator : Option String := none
  value : Option Rat := none
  checkInterval : Option Int := none
deriving DecidableEq

structure Conditions where
  campaignStatus : Option String := none
  campaignNameContains : Option String := none
  minSpend : Option Rat := none
  maxSpend : Option Rat := none
deriving DecidableEq

structure Action where
  type : String
  budgetChange : Option Rat := none
  notifyMessage : Option String := none
deriving DecidableEq

structure Rule where
  id : String
  name : String
  accountId : String
  enabled : Bool
  trigger : Trigger
  conditions : Conditions
  actions : List Action
  createdAt : Nat
  lastRunAt : Option Nat := none
deriving DecidableEq

/- A campaign as returned by metaClient.getCampaigns: the name field is
optional (the source guards it with optional chaining), spend is the
reported spend figure, carried along although the engine never reads it. -/
structure Campaign where
  id : String
  name : Option String := none
  status : String
  spend : Rat := 0
deriving DecidableEq

/- JS truthiness of an optional string: undefined and the empty string are
falsy. -/
def truthyStr : Option String → Bool
  | some s => !(s = "")
  | none => false

/- JS truthiness of an optional integer: undefined and 0 are falsy, every
nonzero integer is truthy. -/
def truthyInt : Option Int → Bool
  | some n => !(n = 0)
  | none => false

/- Case-insensitive helpers for the name filter.  listIncludes sub s decides
whether sub occurs as a contiguous run inside s, the semantics of the JS
String.prototype.includes. -/
def listIncludes (sub : List Char) : List Char → Bool
  | [] => sub.isEmpty
  | c :: rest => List.isPrefixOf sub (c :: rest) || listIncludes sub rest

def strIncludes (s sub : String) : Bool :=
  listIncludes sub.data s.data

/- The static conditions filter, translated from the campaign filter closure
in executeRule (engine.ts): the status sub-condition applies when
campaignStatus is truthy and not "ANY"; the name sub-condition applies when
campaignNameContains is truthy, comparing lowercased strings, and a campaign
without a name fails it; nothing else is checked (in particular minSpend and
maxSpend are never read). -/
def matchesConditions (conds : Conditions) (c : Campaign) : Bool :=
  (match conds.campaignStatus with
   | some st => if st = "" then true else if st = "ANY" then true else c.status = st
   | none => true)
  &&
  (match conds.campaignNameContains with
   | some sub =>
     if sub = "" then true
     else
       match c.name with
       | some n => strIncludes n.toLower sub.toLower
       | none => false
   | none => true)

/- The checkThreshold method: operator is the raw string from the rule;
any operator other than gt, lt, eq falls through to the default false. -/
def checkThreshold (value : Rat) (operator : String) (threshold : Rat) : Bool :=
  if operator = "gt" then decide (value > threshold)
  else if operator = "lt" then decide (value < threshold)
  else if operator = "eq" then decide (value = threshold)
  else false

/- The call site passes rule.trigger.operator! and rule.trigger.value! with
non-null assertions: an undefined operator hits the default branch of the
switch (false), and every comparison of a number against undefined is false,
so an undefined value yields false for all three operators. -/
def checkThresholdOpt (v : Rat) (op : Option String) (threshold : Option Rat) : Bool :=
  match threshold with
  | some t => checkThreshold v (op.getD "") t
  | none => false

/- An insights record: association list from field name to the parseFloat
result of that field (none when absent or NaN). -/
abbrev InsightsRecord := List (String × Option Rat)

/- The metric extraction parseFloat(insights[0][metric]) || 0. -/
def metricValue (r : InsightsRecord) (field : String) : Rat :=
  match List.lookup field r with
  | some (some v) => v
  | some none => 0
  | none => 0

/- Oracle bundle for one fire: results of the external calls the fire makes. -/
structure FireEnv where
  campaigns : Except Unit (List Campaign)
  insights : String → Except Unit (List InsightsRecord)
  updateCampaign : String → String → Except Unit Unit
  slackConfigured : Bool

/- The per-campaign threshold test from the loop in executeRule: an insights
fetch failure is caught and logged (campaign excluded), an empty insights
array excludes the campaign, otherwise the first record is compared. -/
def campaignTriggered (env : FireEnv) (rule : Rule) (c : Campaign) : Bool :=
  match env.insights c.id with
  | Except.error _ => false
  | Except.ok [] => false
  | Except.ok (r :: _) =>
    checkThresholdOpt (metricValue r (rule.trigger.metric.getD ""))
      rule.trigger.operator rule.trigger.value

/- The guard rule.trigger.type === "threshold" && rule.trigger.metric. -/
def thresholdActive (t : Trigger) : Bool :=
  t.type = "threshold" && truthyStr t.metric

/- Triggered-campaign selection: threshold rules filter the matching
campaigns through the metric comparison, all other rules trigger every
matching campaign. -/
def triggeredCampaigns (env : FireEnv) (rule : Rule) (matching : List Campaign) :
    List Campaign :=
  if thresholdActive rule.trigger then matching.filter (campaignTriggered env rule)
  else matching

/- Observable side effects of a fire. -/
inductive Event
  | update (campaignId status : String)
  | slack (kind title message : String)
deriving DecidableEq

/- First-occurrence string replacement, the semantics of the JS
String.prototype.replace with a string pattern. -/
def replaceFirstAux (pat rep : List Char) : List Char → List Char
  | [] => []
  | c :: rest =>
    if List.isPrefixOf pat (c :: rest) then rep ++ (c :: rest).drop pat.length
    else c :: replaceFirstAux pat rep rest

def replaceFirst (s pat rep : String) : String :=
  if pat.data.isEmpty then String.mk (rep.data ++ s.data)
  else String.mk (replaceFirstAux pat.data rep.data s.data)

/- Rendering of a campaign name inside a JS template literal: an undefined
name prints as the string undefined. -/
def displayName (c : Campaign) : String :=
  c.name.getD "undefined"

/- One action applied to one campaign, translated from executeAction.
Returns the events that happened plus a success flag: false means a JS
exception escaped executeAction (only updateCampaign can throw here, since
SlackNotifier.sendAlert catches all transport failures internally and the
notify and adjustBudget branches make no throwing call).  When
updateCampaign throws, no event is recorded for that call and the slack
confirmation is never reached. -/
def executeAction (env : FireEnv) (action : Action) (c : Campaign) (rule : Rule) :
    List Event × Bool :=
  if action.type = "pause" then
    match env.updateCampaign c.id "PAUSED" with
    | Except.error _ => ([], false)
    | Except.ok _ =>
      if env.slackConfigured then
        ([Event.update c.id "PAUSED",
          Event.slack "action" "Campaign Auto-Paused"
            ("Rule \"" ++ rule.name ++ "\" paused campaign \"" ++ displayName c ++ "\"")],
         true)
      else ([Event.update c.id "PAUSED"], true)
  else if action.type = "resume" then
    match env.updateCampaign c.id "ACTIVE" with
    | Except.error _ => ([], false)
    | Except.ok _ =>
      if env.slackConfigured then
        ([Event.update c.id "ACTIVE",
          Event.slack "action" "Campaign Auto-Resumed"
            ("Rule \"" ++ rule.name ++ "\" resumed campaign \"" ++ displayName c ++ "\"")],
         true)
      else ([Event.update c.id "ACTIVE"], true)
  else if action.type = "notify" then
    if env.slackConfigured then
      let fallback := "Alert triggered for campaign \"" ++ displayName c ++ "\""
      let msg :=
        match action.notifyMessage with
        | some tmpl =>
          let rendered := replaceFirst tmpl "{campaign_name}" (displayName c)
          if rendered = "" then fallback else rendered
        | none => fallback
      ([Event.slack "alert" rule.name msg], true)
    else ([], true)
  else
    ([], true)

/- The action loop over one campaign: for (const action of rule.actions).
There is no try/catch around executeAction, so the first failure aborts the
remaining actions and propagates. -/
def runActionsForCampaign (env : FireEnv) (rule : Rule) (c : Campaign) :
    List Action → List Event × Bool
  | [] => ([], true)
  | a :: rest =>
    let r := executeAction env a c rule
    if r.2 then
      let r2 := runActionsForCampaign env rule c rest
      (r.1 ++ r2.1, r2.2)
    else (r.1, false)

/- The outer loop over triggered campaigns; a propagating failure aborts the
remaining campaigns as well. -/
def runActions (env : FireEnv) (rule : Rule) : List Campaign → List Event × Bool
  | [] => ([], true)
  | c :: rest =>
    let r := runActionsForCampaign env rule c rule.actions
    if r.2 then
      let r2 := runActions env rule rest
      (r.1 ++ r2.1, r2.2)
    else (r.1, false)

/- Result of one fire: the events performed, the rule record afterwards, and
whether the fire reached the lastRunAt update and saveRules call at the end
of the try block. -/
structure FireResult where
  events : List Event
  rule : Rule
  saved : Bool
deriving DecidableEq

/- One fire of a rule, translated from executeRule.  The whole body sits in
one try/catch: a getCampaigns failure, or a failure escaping executeAction,
jumps to the catch (which only logs), skipping everything after it — in
particular the lastRunAt update and the saveRules call. -/
def executeRule (env : FireEnv) (now : Nat) (rule : Rule) : FireResult :=
  match env.campaigns with
  | Except.error _ => ⟨[], rule, false⟩
  | Except.ok campaigns =>
    let matching := campaigns.filter (matchesConditions rule.conditions)
    let triggered := triggeredCampaigns env rule matching
    let r := runActions env rule triggered
    if r.2 then ⟨r.1, { rule with lastRunAt := some now }, true⟩
    else ⟨r.1, rule, false⟩

/- Scheduler state: the keys of the two job maps (cronJobs, intervalJobs).
Both are JS Maps keyed by rule id; only the key sets matter for the live-job
invariants. -/
structure SchedState where
  cronJobs : List String
  intervalJobs : List String
deriving DecidableEq

def emptySched : SchedState := ⟨[], []⟩

/- unscheduleRule: stop and delete the cron job and the interval job for the
id, a no-op on maps that do not hold the id. -/
def unscheduleRule (s : SchedState) (ruleId : String) : SchedState :=
  ⟨s.cronJobs.filter (fun k => decide (¬ k = ruleId)),
   s.intervalJobs.filter (fun k => decide (¬ k = ruleId))⟩

/- scheduleRule, with the validity of a cron expression supplied as an
oracle cronValid (cron.schedule throws on an invalid expression; the source
wraps the call in try/catch and only logs, leaving no job).  The source
first unschedules, returns early for a disabled rule, then either registers
a cron job (schedule trigger with truthy cron string accepted by node-cron)
or an interval job (threshold trigger with truthy checkInterval; note that a
negative checkInterval is truthy, so setInterval is called and a job is
registered). -/
def scheduleRule (cronValid : String → Bool) (s : SchedState) (rule : Rule) :
    SchedState :=
  let s1 := unscheduleRule s rule.id
  if !rule.enabled then s1
  else if rule.trigger.type = "schedule" && truthyStr rule.trigger.cron then
    if cronValid (rule.trigger.cron.getD "") then
      ⟨rule.id :: s1.cronJobs, s1.intervalJobs⟩
    else s1
  else if rule.trigger.type = "threshold" && truthyInt rule.trigger.checkInterval then
    ⟨s1.cronJobs, rule.id :: s1.intervalJobs⟩
  else s1

/- The call to scheduleRule as seen by its caller: the second component is
the JS exception escaping the call, if any.  The only throwing call inside,
cron.schedule, is wrapped in try/catch, so no exception ever escapes. -/
def scheduleRuleCall (cronValid : String → Bool) (s : SchedState) (rule : Rule) :
    SchedState × Option String :=
  (scheduleRule cronValid s rule, none)

def liveJobs (s : SchedState) (ruleId : String) : Nat :=
  s.cronJobs.count ruleId + s.intervalJobs.count ruleId

def hasJob (s : SchedState) (ruleId : String) : Bool :=
  s.cronJobs.contains ruleId || s.intervalJobs.contains ruleId

/- Whether scheduleRule registers a job for the rule: the rule is enabled
and its trigger is acceptable to the branch it selects. -/
def jobCreated (cronValid : String → Bool) (rule : Rule) : Bool :=
  rule.enabled &&
  (if rule.trigger.type = "schedule" && truthyStr rule.trigger.cron
   then cronValid (rule.trigger.cron.getD "")
   else rule.trigger.type = "threshold" && truthyInt rule.trigger.checkInterval)

/- Engine state: the in-memory rule map (insertion-ordered, as a JS Map),
the scheduler state, and the last successfully persisted snapshot (the
automations.json mirror; none before any successful write). -/
structure EngineState where
  rules : List (String × Rule)
  sched : SchedState
  store : Option (List Rule)

def emptyEngine : EngineState := ⟨[], emptySched, none⟩

/- JS Map operations on the insertion-ordered association list. -/
def mapGet (m : List (String × Rule)) (k : String) : Option Rule :=
  (m.find? (fun p => decide (p.1 = k))).map (fun p => p.2)

def mapSet (m : List (String × Rule)) (k : String) (v : Rule) :
    List (String × Rule) :=
  if m.any (fun p => decide (p.1 = k)) then
    m.map (fun p => if p.1 = k then (k, v) else p)
  else m ++ [(k, v)]

def mapValues (m : List (String × Rule)) : List Rule :=
  m.map (fun p => p.2)

/- saveRules: serializes Array.from(this.rules.values()) to the JSON file.
The body is wrapped in try/catch whose handler only logs, so a write failure
(saveOk = false) leaves the previous mirror and never raises to the caller. -/
def saveRules (saveOk : Bool) (rules : List (String × Rule))
    (store : Option (List Rule)) : Option (List Rule) :=
  if saveOk then some (mapValues rules) else store

/- Input to addRule: Omit of AutomationRule over id and createdAt. -/
structure RuleData where
  name : String
  accountId : String
  enabled : Bool
  trigger : Trigger
  conditions : Conditions
  actions : List Action
  lastRunAt : Option Nat := none
deriving DecidableEq

def RuleData.toRule (rd : RuleData) (id : String) (now : Nat) : Rule :=
  ⟨id, rd.name, rd.accountId, rd.enabled, rd.trigger, rd.conditions,
   rd.actions, now, rd.lastRunAt⟩

/- Result of a facade call that can in principle let a JS exception escape
to its caller; threw records such an exception. -/
structure AddRuleResult where
  state : EngineState
  id : String
  threw : Option String

/- addRule: builds the rule with a fresh id (rule_Date.now_random, supplied
here as freshId) and the creation instant, sets it in the map, calls
saveRules (which swallows write failures), schedules when enabled (and
scheduleRule swallows cron errors), and returns the id.  No call inside can
raise, so threw is always none. -/
def addRule (cronValid : String → Bool) (saveOk : Bool) (freshId : String)
    (now : Nat) (σ : EngineState) (rd : RuleData) : AddRuleResult :=
  let rule := rd.toRule freshId now
  let rules1 := mapSet σ.rules freshId rule
  let store1 := saveRules saveOk rules1 σ.store
  let sched1 := if rule.enabled then scheduleRule cronValid σ.sched rule else σ.sched
  ⟨⟨rules1, sched1, store1⟩, freshId, none⟩

/- toggleRule: no-op when the id is unknown; otherwise flips enabled on the
stored rule, sets it back, persists, and re-syncs the scheduler for this
rule only. -/
def toggleRule (cronValid : String → Bool) (saveOk : Bool) (σ : EngineState)
    (ruleId : String) : EngineState :=
  match mapGet σ.rules ruleId with
  | none => σ
  | some rule =>
    let rule1 := { rule with enabled := !rule.enabled }
    let rules1 := mapSet σ.rules ruleId rule1
    let store1 := saveRules saveOk rules1 σ.store
    let sched1 :=
      if rule1.enabled then scheduleRule cronValid σ.sched rule1
      else unscheduleRule σ.sched ruleId
    ⟨rules1, sched1, store1⟩

/- stop: stops every cron job and clears every interval, emptying both job
maps; the rule map and the mirror are untouched. -/
def stop (σ : EngineState) : EngineState :=
  ⟨σ.rules, emptySched, σ.store⟩

/- getRulesForAccount: filter over a fresh array of the map values. -/
def getRulesForAccount (σ : EngineState) (accountId : String) : List Rule :=
  (mapValues σ.rules).filter
    (fun r => decide (r.accountId = accountId) || decide (r.accountId = "act_" ++ accountId))

/- The same call viewed as a state transformer, making it visible that the
method never mutates the rule map. -/
def getRulesForAccountOp (σ : EngineState) (accountId : String) :
    EngineState × List Rule :=
  (σ, getRulesForAccount σ accountId)

/-- Modelled from the spec: the static conditions filter as the spec words
describe it — a campaign passes iff every configured sub-condition is
satisfied: the status filter when specified and not ANY, the
case-insensitive name-substring filter when specified, and the min and max
spend bounds checked against the reported spend when specified.  This
definition exists only to be compared against matchesConditions, the filter
translated from the source. -/
def specConditionsPass (conds : Conditions) (c : Campaign) : Bool :=
  (match conds.campaignStatus with
   | some st => if st = "ANY" then true else c.status = st
   | none => true)
  && (match conds.campaignNameContains with
   | some sub =>
     (match c.name with
      | some n => strIncludes n.toLower sub.toLower
      | none => false)
   | none => true)
  && (match conds.minSpend with
   | some lo => decide (lo ≤ c.spend)
   | none => true)
  && (match conds.maxSpend with
   | some hi => decide (c.spend ≤ hi)
   | none => true)

/- Concrete sample data used by counterexamples and witnesses. -/

def cvTrue : String → Bool := fun _ => true

def cvNone : String → Bool := fun _ => false

def c1conds : Conditions := { minSpend := some 100 }

def c1camp : Campaign := { id := "c1", status := "ACTIVE", spend := 5 }

def c2a : Campaign := { id := "cA", status := "ACTIVE" }

def c2b : Campaign := { id := "cB", status := "ACTIVE" }

def rule2 : Rule :=
  { id := "r2", name := "pause all", accountId := "act_1", enabled := true,
    trigger := { type := "schedule", cron := some "* * * * *" },
    conditions := {}, actions := [{ type := "pause" }, { type := "notify" }],
    createdAt := 0 }

def env2 : FireEnv :=
  { campaigns := Except.ok [c2a, c2b],
    insights := fun _ => Except.ok [],
    updateCampaign := fun cid _ => if cid = "cA" then Except.error () else Except.ok (),
    slackConfigured := true }

def rule3 : Rule :=
  { id := "r3", name := "n3", accountId := "a3", enabled := true,
    trigger := { type := "schedule", cron := some "0 * * * *" },
    conditions := {}, actions := [], createdAt := 0, lastRunAt := none }

def env3 : FireEnv :=
  { campaigns := Except.error (),
    insights := fun _ => Except.ok [],
    updateCampaign := fun _ _ => Except.ok (),
    slackConfigured := false }

def rd4 : RuleData :=
  { name := "n4", accountId := "a4", enabled := false,
    trigger := { type := "schedule", cron := some "0 0 * * *" },
    conditions := {}, actions := [] }

def r5zero : Rule :=
  { id := "r5z", name := "z", accountId := "a", enabled := true,
    trigger := { type := "threshold", metric := some "spend", operator := some "gt",
                 value := some 10, checkInterval := some 0 },
    conditions := {}, actions := [], createdAt := 0 }

def r5neg : Rule :=
  { id := "r5n", name := "neg", accountId := "a", enabled := true,
    trigger := { type := "threshold", metric := some "spend", operator := some "gt",
                 value := some 10, checkInterval := some (-5) },
    conditions := {}, actions := [], createdAt := 0 }

def r5cron : Rule :=
  { id := "r5c", name := "badcron", accountId := "a", enabled := true,
    trigger := { type := "schedule", cron := some "not a cron" },
    conditions := {}, actions := [], createdAt := 0 }

def camp6 : Campaign := { id := "c6", status := "ACTIVE" }

def rule6 : Rule :=
  { id := "r6", name := "thr", accountId := "a", enabled := true,
    trigger := { type := "threshold", metric := some "spend", operator := some "gt",
                 value := some 100, checkInterval := some 5 },
    conditions := {}, actions := [], createdAt := 0 }

def env6 : FireEnv :=
  { campaigns := Except.ok [camp6],
    insights := fun _ => Except.ok [[("spend", some 150)]],
    updateCampaign := fun _ _ => Except.ok (),
    slackConfigured := false }

def rd7 : RuleData :=
  { name := "n7", accountId := "a7", enabled := true,
    trigger := { type := "threshold", metric := some "spend", operator := some "gt",
                 value := some 10, checkInterval := some 0 },
    conditions := {}, actions := [] }

def rd8 : RuleData :=
  { name := "n8", accountId := "a8", enabled := true,
    trigger := { type := "threshold", metric := some "spend", operator := some "gt",
                 value := some 10, checkInterval := some 5 },
    conditions := {}, actions := [] }

def rule9 : Rule :=
  { id := "r9", name := "low ctr", accountId := "a", enabled := true,
    trigger := { type := "threshold", metric := some "ctr", operator := some "lt",
                 value := some 10, checkInterval := some 5 },
    conditions := {}, actions := [], createdAt := 0 }

def camp9 : Campaign := { id := "c9", status := "ACTIVE" }

def camp9b : Campaign := { id := "c9b", status := "ACTIVE" }

def env9 : FireEnv :=
  { campaigns := Except.ok [camp9, camp9b],
    insights := fun cid =>
      if cid = "c9" then Except.ok [[("spend", some 3)]] else Except.ok [],
    updateCampaign := fun _ _ => Except.ok (),
    slackConfigured := false }

/- Theorems. -/

/-- C1 counterexample: the claim states that the static conditions filter
checks the min and max spend bounds when they are configured; on the code it
does not.  With a rule whose only configured sub-condition is a minimum
spend of 100 and a campaign whose reported spend is 5, the source filter
passes the campaign while the filter described by the claim rejects it. -/
theorem C1_spend_bounds_ignored :
    matchesConditions c1conds c1camp = true ∧
    specConditionsPass c1conds c1camp = false := by
  decide

/-- C1 (amended): a campaign passes the static conditions filter iff the
status sub-condition (when configured and not ANY) and the case-insensitive
name-substring sub-condition (when configured) are satisfied; the minSpend
and maxSpend bounds impose no constraint whatsoever — the filter result is
invariant under arbitrary changes to them. -/
theorem C1_conditions_filter (conds : Conditions) (c : Campaign) :
    (matchesConditions conds c = true ↔
      ((∀ st, conds.campaignStatus = some st → ¬ st = "" → ¬ st = "ANY" → c.status = st) ∧
       (∀ sub, conds.campaignNameContains = some sub → ¬ sub = "" →
         ∃ n, c.name = some n ∧ strIncludes n.toLower sub.toLower = true))) ∧
    (∀ lo hi, matchesConditions { conds with minSpend := lo, maxSpend := hi } c =
      matchesConditions conds c) := by
  constructor
  · rcases conds with ⟨st?, sub?, lo?, hi?⟩
    rcases st? with _ | st <;> rcases sub? with _ | sub <;>
      rcases hnm : c.name with _ | n <;>
      simp [matchesConditions, hnm] <;> tauto
  · intro lo hi
    rfl

/- Helper lemmas about the scheduler job tables and the rule map. -/

theorem count_filter_ne_self (l : List String) (x : String) :
    (l.filter (fun k => decide (¬ k = x))).count x = 0 := by
  rw [List.count_eq_zero]
  intro hmem
  have h := List.of_mem_filter hmem
  simp at h

theorem count_filter_bne (l : List String) (x : String) :
    List.count x (List.filter (fun k => !decide (k = x)) l) = 0 := by
  rw [List.count_eq_zero]
  intro hmem
  have h := List.of_mem_filter hmem
  simp at h

theorem liveJobs_unschedule (s : SchedState) (x : String) :
    liveJobs (unscheduleRule s x) x = 0 := by
  unfold liveJobs unscheduleRule
  rw [count_filter_ne_self, count_filter_ne_self]

theorem hasJob_unschedule (s : SchedState) (x : String) :
    hasJob (unscheduleRule s x) x = false := by
  simp [hasJob, unscheduleRule]

theorem unschedule_no_job (s : SchedState) (x : String) (h : hasJob s x = false) :
    unscheduleRule s x = s := by
  simp [hasJob] at h
  obtain ⟨h1, h2⟩ := h
  unfold unscheduleRule
  rw [List.filter_eq_self.mpr, List.filter_eq_self.mpr]
  · intro a ha
    simp
    intro heq
    exact h2 (heq ▸ ha)
  · intro a ha
    simp
    intro heq
    exact h1 (heq ▸ ha)

theorem liveJobs_scheduleRule (cronValid : String → Bool) (s : SchedState) (rule : Rule) :
    liveJobs (scheduleRule cronValid s rule) rule.id =
      (if jobCreated cronValid rule then 1 else 0) := by
  cases he : rule.enabled with
  | false =>
    simp [scheduleRule, jobCreated, he, liveJobs_unschedule]
  | true =>
    by_cases hg1 : (rule.trigger.type = "schedule" && truthyStr rule.trigger.cron) = true
    · by_cases hcv : cronValid (rule.trigger.cron.getD "") = true
      · simp [scheduleRule, jobCreated, he, hg1, hcv, liveJobs, unscheduleRule,
          List.count_cons, count_filter_bne]
      · simp [scheduleRule, jobCreated, he, hg1, hcv, liveJobs_unschedule, liveJobs, unscheduleRule,
          count_filter_bne]
    · by_cases hg2 : (rule.trigger.type = "threshold" && truthyInt rule.trigger.checkInterval) = true
      · simp [scheduleRule, jobCreated, he, hg1, hg2, liveJobs, unscheduleRule,
          List.count_cons, count_filter_bne]
      · simp [scheduleRule, jobCreated, he, hg1, hg2, liveJobs_unschedule, liveJobs, unscheduleRule,
          count_filter_bne]

theorem hasJob_scheduleRule (cronValid : String → Bool) (s : SchedState) (rule : Rule) :
    hasJob (scheduleRule cronValid s rule) rule.id = jobCreated cronValid rule := by
  cases he : rule.enabled with
  | false =>
    simp [scheduleRule, jobCreated, he, hasJob, unscheduleRule]
  | true =>
    by_cases hg1 : (rule.trigger.type = "schedule" && truthyStr rule.trigger.cron) = true
    · by_cases hcv : cronValid (rule.trigger.cron.getD "") = true
      · simp [scheduleRule, jobCreated, he, hg1, hcv, hasJob, unscheduleRule]
      · simp [scheduleRule, jobCreated, he, hg1, hcv, hasJob, unscheduleRule]
    · by_cases hg2 : (rule.trigger.type = "threshold" && truthyInt rule.trigger.checkInterval) = true
      · simp [scheduleRule, jobCreated, he, hg1, hg2, hasJob, unscheduleRule]
      · simp [scheduleRule, jobCreated, he, hg1, hg2, hasJob, unscheduleRule]

theorem scheduleRule_idem (cronValid : String → Bool) (s : SchedState) (r : Rule) :
    scheduleRule cronValid (scheduleRule cronValid s r) r = scheduleRule cronValid s r := by
  cases he : r.enabled with
  | false => simp [scheduleRule, unscheduleRule, he, List.filter_filter]
  | true =>
    by_cases hg1 : (r.trigger.type = "schedule" && truthyStr r.trigger.cron) = true
    · by_cases hcv : cronValid (r.trigger.cron.getD "") = true
      · simp [scheduleRule, unscheduleRule, he, hg1, hcv, List.filter_filter]
      · simp [scheduleRule, unscheduleRule, he, hg1, hcv, List.filter_filter]
    · by_cases hg2 : (r.trigger.type = "threshold" && truthyInt r.trigger.checkInterval) = true
      · simp [scheduleRule, unscheduleRule, he, hg1, hg2, List.filter_filter]
      · simp [scheduleRule, unscheduleRule, he, hg1, hg2, List.filter_filter]

theorem mapGet_mapSet_same (m : List (String × Rule)) (k : String) (v : Rule) :
    mapGet (mapSet m k v) k = some v := by
  induction m with
  | nil => simp [mapGet, mapSet]
  | cons p m ih =>
    by_cases hp : p.1 = k
    · simp [mapGet, mapSet, hp, List.find?]
    · cases ha : m.any (fun q => decide (q.1 = k)) with
      | true =>
        have hy : (p :: m).any (fun q => decide (q.1 = k)) = true := by simp [ha]
        rw [mapSet, if_pos hy]
        rw [mapSet, if_pos ha] at ih
        rw [List.map_cons, if_neg hp]
        rw [mapGet] at ih ⊢
        rw [List.find?_cons_of_neg]
        · exact ih
        · simp [hp]
      | false =>
        have hy : (p :: m).any (fun q => decide (q.1 = k)) = false := by simp [ha, hp]
        rw [mapSet, if_neg (by simp [hy, hp, ha])]
        rw [mapSet, if_neg (by simp [ha])] at ih
        rw [List.cons_append]
        rw [mapGet] at ih ⊢
        rw [List.find?_cons_of_neg]
        · exact ih
        · simp [hp]

/-- C2 counterexample: the claim states that a Campaign Data Client failure
while applying one action aborts only that action for that campaign, with
subsequent actions and other triggered campaigns still processed.  On the
code there is no per-action try/catch: with two triggered campaigns and the
action list pause-then-notify, the pause failure on the first campaign
propagates to the rule-level catch, so the notify for that campaign, both
actions for the second campaign, and the lastRunAt update are all skipped
(no event at all is produced). -/
theorem C2_action_failure_cascades :
    triggeredCampaigns env2 rule2 ([c2a, c2b].filter (matchesConditions rule2.conditions)) =
      [c2a, c2b] ∧
    (executeAction env2 { type := "pause" } c2a rule2).2 = false ∧
    (executeRule env2 7 rule2).events = [] ∧
    (executeRule env2 7 rule2).rule = rule2 ∧
    (executeRule env2 7 rule2).saved = false := by
  decide

/-- C2 (amended): a failure raised while applying one action aborts the
entire fire, not just that action — the remaining actions for the same
campaign are skipped, the remaining triggered campaigns contribute no
events, and the fire ends without updating lastRunAt or saving. -/
theorem C2_failure_aborts_fire (env : FireEnv) (rule : Rule) (c : Campaign)
    (rest : List Campaign) (now : Nat)
    (hfail : (runActionsForCampaign env rule c rule.actions).2 = false) :
    runActions env rule (c :: rest) =
      ((runActionsForCampaign env rule c rule.actions).1, false) ∧
    (∀ a as, (executeAction env a c rule).2 = false →
      runActionsForCampaign env rule c (a :: as) = ((executeAction env a c rule).1, false)) ∧
    (∀ cs, env.campaigns = Except.ok cs →
      triggeredCampaigns env rule (cs.filter (matchesConditions rule.conditions)) = c :: rest →
      (executeRule env now rule).events = (runActionsForCampaign env rule c rule.actions).1 ∧
      (executeRule env now rule).rule = rule ∧
      (executeRule env now rule).saved = false) := by
  have h1 : runActions env rule (c :: rest) =
      ((runActionsForCampaign env rule c rule.actions).1, false) := by
    simp [runActions, hfail]
  refine ⟨h1, ?_, ?_⟩
  · intro a as h
    simp [runActionsForCampaign, h]
  · intro cs hcs htrig
    have he : executeRule env now rule =
        ⟨(runActionsForCampaign env rule c rule.actions).1, rule, false⟩ := by
      rw [executeRule, hcs]
      simp [htrig, h1]
    rw [he]
    exact ⟨rfl, rfl, rfl⟩

/-- C2 witness: the amended theorem applied to the concrete environment in
which the pause of campaign cA fails. -/
theorem C2_failure_aborts_fire_witness :
    runActions env2 rule2 [c2a, c2b] = (([] : List Event), false) := by
  have h := (C2_failure_aborts_fire env2 rule2 c2a [c2b] 7 (by decide)).1
  rw [h]
  decide

/-- C3 counterexample: the claim states that every evaluation attempt,
success or failure, updates lastRunAt.  On the code the lastRunAt update
sits inside the try block after the campaign fetch and the action loop, so
when getCampaigns fails the catch is taken and lastRunAt stays untouched:
here the rule has no lastRunAt and still has none after the failed fire. -/
theorem C3_lastRunAt_not_updated_on_failure :
    rule3.lastRunAt = none ∧
    (executeRule env3 9 rule3).rule.lastRunAt = none ∧
    (executeRule env3 9 rule3).events = [] := by
  decide

/-- C3 (amended): when the campaign-list fetch fails, no action is executed
and the rule record — in particular lastRunAt — is left unchanged; when the
fire completes successfully, lastRunAt is set to the fire instant; and under
a monotone clock (the fire instant at least the stored lastRunAt) the stored
lastRunAt never decreases. -/
theorem C3_evaluation_lastRunAt (env : FireEnv) (now : Nat) (rule : Rule) :
    (env.campaigns = Except.error () →
      (executeRule env now rule).events = [] ∧ (executeRule env now rule).rule = rule) ∧
    ((executeRule env now rule).saved = true →
      (executeRule env now rule).rule.lastRunAt = some now) ∧
    (∀ old, rule.lastRunAt = some old → old ≤ now →
      ∃ t, (executeRule env now rule).rule.lastRunAt = some t ∧ old ≤ t) := by
  rcases hc : env.campaigns with e | cs
  · have he : executeRule env now rule = ⟨[], rule, false⟩ := by
      rw [executeRule, hc]
    refine ⟨fun _ => ⟨by rw [he], by rw [he]⟩, ?_, ?_⟩
    · intro hs
      rw [he] at hs
      exact absurd hs Bool.false_ne_true
    · intro old hold _
      exact ⟨old, by rw [he]; exact hold, le_refl old⟩
  · have he : executeRule env now rule =
        (let matching := cs.filter (matchesConditions rule.conditions)
         let triggered := triggeredCampaigns env rule matching
         let r := runActions env rule triggered
         if r.2 then ⟨r.1, { rule with lastRunAt := some now }, true⟩
         else ⟨r.1, rule, false⟩) := by
      rw [executeRule, hc]
    refine ⟨fun habs => ?_, ?_, ?_⟩
    · exact Except.noConfusion habs
    · intro hs
      rw [he] at hs ⊢
      by_cases hr : (runActions env rule
          (triggeredCampaigns env rule (cs.filter (matchesConditions rule.conditions)))).2 = true
      · simp only [hr, if_true]
      · simp only [hr, if_false] at hs ⊢
        simp [Bool.not_eq_true] at hr
        simp [hr] at hs
    · intro old hold hle
      rw [he]
      by_cases hr : (runActions env rule
          (triggeredCampaigns env rule (cs.filter (matchesConditions rule.conditions)))).2 = true
      · exact ⟨now, by simp [hr], hle⟩
      · simp [Bool.not_eq_true] at hr
        exact ⟨old, by simp [hr, hold], le_refl old⟩

/-- C3 witness: the amended theorem applied to the environment whose
campaign fetch fails, showing the failed fire runs no action and leaves the
rule record unchanged. -/
theorem C3_evaluation_lastRunAt_witness :
    (executeRule env3 9 rule3).events = [] ∧ (executeRule env3 9 rule3).rule = rule3 :=
  (C3_evaluation_lastRunAt env3 9 rule3).1 rfl

/-- C4 counterexample: the claim states that a Rule Store write failure
makes addRule propagate a PersistenceError to its caller.  On the code
saveRules wraps the write in try/catch and only logs, so with the write
failing the call still returns the fresh id, signals no error, updates the
in-memory map, and leaves the persisted mirror stale. -/
theorem C4_write_failure_swallowed :
    (addRule cvTrue false "rule_1" 10 emptyEngine rd4).threw = none ∧
    (addRule cvTrue false "rule_1" 10 emptyEngine rd4).id = "rule_1" ∧
    mapGet (addRule cvTrue false "rule_1" 10 emptyEngine rd4).state.rules "rule_1" =
      some (rd4.toRule "rule_1" 10) ∧
    (addRule cvTrue false "rule_1" 10 emptyEngine rd4).state.store = none := by
  decide

/-- C4 (amended): addRule always succeeds and returns the fresh id with the
rule stored in the in-memory map; a Store write failure is swallowed inside
saveRules, is never propagated to the caller, and merely leaves the
persisted mirror unchanged. -/
theorem C4_addRule_never_propagates (cronValid : String → Bool) (saveOk : Bool)
    (freshId : String) (now : Nat) (σ : EngineState) (rd : RuleData) :
    (addRule cronValid saveOk freshId now σ rd).threw = none ∧
    (addRule cronValid saveOk freshId now σ rd).id = freshId ∧
    mapGet (addRule cronValid saveOk freshId now σ rd).state.rules freshId =
      some (rd.toRule freshId now) ∧
    (saveOk = false → (addRule cronValid saveOk freshId now σ rd).state.store = σ.store) := by
  refine ⟨rfl, rfl, mapGet_mapSet_same _ _ _, ?_⟩
  intro h
  simp [addRule, saveRules, h]

/-- C4 witness: the amended theorem applied with a failing store write. -/
theorem C4_addRule_never_propagates_witness :
    (addRule cvTrue false "w4" 11 emptyEngine rd4).state.store = none :=
  (C4_addRule_never_propagates cvTrue false "w4" 11 emptyEngine rd4).2.2.2 rfl

/-- C5 counterexample: the claim states that an invalid cron expression and
a zero or negative checkInterval each raise a ConfigurationError and leave
no job.  On the code no error of any kind escapes scheduleRule: the invalid
cron is caught and logged with no job, the zero interval silently registers
no job, and a negative interval — being truthy — actually registers a live
interval job. -/
theorem C5_malformed_trigger_silent :
    (scheduleRuleCall cvTrue emptySched r5zero).2 = none ∧
    liveJobs (scheduleRuleCall cvTrue emptySched r5zero).1 "r5z" = 0 ∧
    (scheduleRuleCall cvNone emptySched r5cron).2 = none ∧
    liveJobs (scheduleRuleCall cvNone emptySched r5cron).1 "r5c" = 0 ∧
    (scheduleRuleCall cvTrue emptySched r5neg).2 = none ∧
    liveJobs (scheduleRuleCall cvTrue emptySched r5neg).1 "r5n" = 1 := by
  decide

/-- C5 (amended): scheduling a malformed trigger never raises to the caller;
an invalid cron expression on a schedule trigger leaves no job (caught and
logged), a zero checkInterval on a threshold trigger leaves no job
(falsiness skips the branch), while a nonzero — even negative —
checkInterval on an enabled threshold rule registers exactly one live job. -/
theorem C5_no_configuration_error (cronValid : String → Bool) (s : SchedState) (rule : Rule) :
    (scheduleRuleCall cronValid s rule).2 = none ∧
    (rule.trigger.type = "schedule" → ∀ c, rule.trigger.cron = some c → cronValid c = false →
      liveJobs (scheduleRuleCall cronValid s rule).1 rule.id = 0) ∧
    (rule.trigger.type = "threshold" → rule.trigger.checkInterval = some 0 →
      liveJobs (scheduleRuleCall cronValid s rule).1 rule.id = 0) ∧
    (rule.enabled = true → rule.trigger.type = "threshold" →
      ∀ n : Int, ¬ n = 0 → rule.trigger.checkInterval = some n →
      liveJobs (scheduleRuleCall cronValid s rule).1 rule.id = 1) := by
  have hL : (scheduleRuleCall cronValid s rule).1 = scheduleRule cronValid s rule := rfl
  refine ⟨rfl, ?_, ?_, ?_⟩
  · intro htype c hcron hcv
    rw [hL, liveJobs_scheduleRule]
    by_cases hc : c = ""
    · simp [jobCreated, htype, hcron, hc, truthyStr]
    · simp [jobCreated, htype, hcron, hc, truthyStr, hcv]
  · intro htype hci
    rw [hL, liveJobs_scheduleRule]
    simp [jobCreated, htype, hci, truthyInt]
  · intro hen htype n hn hci
    rw [hL, liveJobs_scheduleRule]
    simp [jobCreated, hen, htype, hci, truthyInt, truthyStr, hn]

/-- C5 witness: the amended theorem applied to the enabled threshold rule
with zero checkInterval, which ends with no job and no error. -/
theorem C5_no_configuration_error_witness :
    liveJobs (scheduleRuleCall cvTrue emptySched r5zero).1 r5zero.id = 0 :=
  (C5_no_configuration_error cvTrue emptySched r5zero).2.2.1 rfl rfl

/-- C6 confirmed: for a threshold rule with a configured metric, operator
and value, a condition-passing campaign whose insights fetch succeeded with
a non-empty record list is in the triggered set iff
checkThreshold(metricValue, operator, value) holds, where gt is strict
greater-than, lt strict less-than and eq exact equality; with operator gt
and threshold 100 a metric value of 150 passes and exactly 100 does not. -/
theorem C6_threshold_comparison (env : FireEnv) (rule : Rule) (cs : List Campaign)
    (c : Campaign) (m op : String) (t : Rat) (r : InsightsRecord) (recs : List InsightsRecord)
    (htype : rule.trigger.type = "threshold")
    (hm : rule.trigger.metric = some m) (hm0 : ¬ m = "")
    (hop : rule.trigger.operator = some op) (hval : rule.trigger.value = some t)
    (hmem : c ∈ cs) (hpass : matchesConditions rule.conditions c = true)
    (hins : env.insights c.id = Except.ok (r :: recs)) :
    (c ∈ triggeredCampaigns env rule (cs.filter (matchesConditions rule.conditions)) ↔
      checkThreshold (metricValue r m) op t = true) ∧
    (∀ v th : Rat, checkThreshold v "gt" th = decide (v > th) ∧
      checkThreshold v "lt" th = decide (v < th) ∧
      checkThreshold v "eq" th = decide (v = th)) ∧
    checkThreshold 150 "gt" 100 = true ∧ checkThreshold 100 "gt" 100 = false := by
  have hact : thresholdActive rule.trigger = true := by
    simp [thresholdActive, htype, hm, truthyStr, hm0]
  refine ⟨?_, ?_, by decide, by decide⟩
  · rw [triggeredCampaigns, if_pos hact]
    have hct : campaignTriggered env rule c =
        checkThreshold (metricValue r m) op t := by
      rw [campaignTriggered, hins]
      simp [hm, hop, hval, checkThresholdOpt]
    rw [List.mem_filter, List.mem_filter]
    simp [hmem, hpass, hct]
  · intro v th
    refine ⟨rfl, ?_, ?_⟩
    · simp [checkThreshold]
    · simp [checkThreshold]

/-- C6 witness: the theorem applied to a concrete threshold rule (metric
spend, operator gt, value 100) and a campaign reporting 150. -/
theorem C6_threshold_comparison_witness :
    camp6 ∈ triggeredCampaigns env6 rule6 ([camp6].filter (matchesConditions rule6.conditions)) := by
  have h := (C6_threshold_comparison env6 rule6 [camp6] camp6 "spend" "gt" 100
    [("spend", some 150)] [] rfl rfl (by decide) rfl rfl (by decide) (by decide) rfl).1
  exact h.mpr (by decide)

/-- C7 counterexample: the claim states that exactly one live job exists per
enabled rule with a schedule or threshold trigger.  On the code an enabled
threshold rule whose checkInterval is zero is stored enabled yet gets no job
when added, so a reachable state has an enabled threshold rule with zero
live jobs. -/
theorem C7_enabled_rule_without_job :
    (mapGet (addRule cvTrue true "id1" 0 emptyEngine rd7).state.rules "id1").map
      (fun r => r.enabled) = some true ∧
    (mapGet (addRule cvTrue true "id1" 0 emptyEngine rd7).state.rules "id1").map
      (fun r => r.trigger.type) = some "threshold" ∧
    liveJobs (addRule cvTrue true "id1" 0 emptyEngine rd7).state.sched "id1" = 0 := by
  decide

/-- C7 (amended): after scheduleRule the rule has exactly one live job when
it is enabled and its trigger is acceptable to the branch taken (valid
truthy cron, or threshold with truthy checkInterval) and zero live jobs
otherwise — in particular at most one job always; scheduling is idempotent
(scheduling twice equals scheduling once); and unschedule on an id with no
live job leaves the scheduler untouched. -/
theorem C7_scheduler_invariants (cronValid : String → Bool) (s : SchedState)
    (rule : Rule) (ruleId : String) :
    liveJobs (scheduleRule cronValid s rule) rule.id =
      (if jobCreated cronValid rule then 1 else 0) ∧
    scheduleRule cronValid (scheduleRule cronValid s rule) rule = scheduleRule cronValid s rule ∧
    (hasJob s ruleId = false → unscheduleRule s ruleId = s) := by
  exact ⟨liveJobs_scheduleRule cronValid s rule, scheduleRule_idem cronValid s rule,
    unschedule_no_job s ruleId⟩

/-- C7 witness: the amended theorem applied to the empty scheduler and an id
with no job. -/
theorem C7_scheduler_invariants_witness :
    unscheduleRule emptySched "zz" = emptySched :=
  (C7_scheduler_invariants cvTrue emptySched rule6 "zz").2.2 rfl

/-- C8 counterexample: the claim states that toggling a known rule twice
leaves the presence of a live job for that id equal to its pre-call state.
On the code, after stop() has cleared all jobs, the enabled rule has no job;
toggling it twice re-runs scheduleRule and creates a job, so the scheduler
state differs from the pre-call state even though the enabled flag is
restored. -/
theorem C8_toggle_after_stop_creates_job :
    (let σ := stop (addRule cvTrue true "r1" 0 emptyEngine rd8).state
     hasJob σ.sched "r1" = false ∧
     hasJob (toggleRule cvTrue true (toggleRule cvTrue true σ "r1") "r1").sched "r1" = true ∧
     (mapGet (toggleRule cvTrue true (toggleRule cvTrue true σ "r1") "r1").rules "r1").map
        (fun r => r.enabled) = (mapGet σ.rules "r1").map (fun r => r.enabled)) := by
  decide

/-- C8 (amended): toggling an unknown id is a no-op; for a known rule,
double toggle always restores the enabled flag, and it restores the
presence of a live job for the id provided the scheduler was in sync with
the rule before the calls (job present exactly when scheduleRule would
create one). -/
theorem C8_double_toggle (cronValid : String → Bool) (saveOk : Bool) (σ : EngineState)
    (ruleId : String) :
    (mapGet σ.rules ruleId = none → toggleRule cronValid saveOk σ ruleId = σ) ∧
    (∀ rule, mapGet σ.rules ruleId = some rule → rule.id = ruleId →
      ((mapGet (toggleRule cronValid saveOk (toggleRule cronValid saveOk σ ruleId) ruleId).rules
          ruleId).map (fun r => r.enabled) = some rule.enabled ∧
       (hasJob σ.sched ruleId = jobCreated cronValid rule →
         hasJob (toggleRule cronValid saveOk (toggleRule cronValid saveOk σ ruleId) ruleId).sched
             ruleId = hasJob σ.sched ruleId))) := by
  constructor
  · intro h
    rw [toggleRule, h]
  · intro rule hget hid
    set rule1 : Rule := { rule with enabled := !rule.enabled } with hrule1
    have h1 : toggleRule cronValid saveOk σ ruleId =
        ⟨mapSet σ.rules ruleId rule1,
         if rule1.enabled then scheduleRule cronValid σ.sched rule1
         else unscheduleRule σ.sched ruleId,
         saveRules saveOk (mapSet σ.rules ruleId rule1) σ.store⟩ := by
      rw [toggleRule, hget]
    have hget1 : mapGet (mapSet σ.rules ruleId rule1) ruleId = some rule1 :=
      mapGet_mapSet_same _ _ _
    set rule2 : Rule := { rule1 with enabled := !rule1.enabled } with hrule2
    have h2 : toggleRule cronValid saveOk (toggleRule cronValid saveOk σ ruleId) ruleId =
        ⟨mapSet (mapSet σ.rules ruleId rule1) ruleId rule2,
         if rule2.enabled then
           scheduleRule cronValid (toggleRule cronValid saveOk σ ruleId).sched rule2
         else unscheduleRule (toggleRule cronValid saveOk σ ruleId).sched ruleId,
         saveRules saveOk (mapSet (mapSet σ.rules ruleId rule1) ruleId rule2)
           (toggleRule cronValid saveOk σ ruleId).store⟩ := by
      conv_lhs => rw [toggleRule]
      rw [h1]
      simp only [hget1]
    have hr2 : rule2 = rule := by
      rw [hrule2, hrule1]
      simp
    constructor
    · rw [h2]
      simp [mapGet_mapSet_same, hr2]
    · intro hjob
      rw [h2]
      cases he : rule.enabled with
      | true =>
        have he1 : rule1.enabled = false := by simp [hrule1, he]
        have he2 : rule2.enabled = true := by rw [hr2]; exact he
        rw [he2, if_pos rfl]
        rw [h1, he1]
        simp only [Bool.false_eq_true, if_false]
        have hid2 : rule2.id = ruleId := by rw [hr2]; exact hid
        calc hasJob (scheduleRule cronValid (unscheduleRule σ.sched ruleId) rule2) ruleId
            = jobCreated cronValid rule2 := by
              rw [← hid2]; exact hasJob_scheduleRule _ _ _
          _ = hasJob σ.sched ruleId := by rw [hr2, hjob]
      | false =>
        have he2 : rule2.enabled = false := by rw [hr2]; exact he
        rw [he2]
        simp only [Bool.false_eq_true, if_false]
        rw [hasJob_unschedule]
        rw [hjob]
        simp [jobCreated, he]

/-- C8 witness: the amended theorem applied right after addRule, where the
scheduler is in sync, showing the double toggle preserves job presence. -/
theorem C8_double_toggle_witness :
    hasJob (toggleRule cvTrue true
        (toggleRule cvTrue true (addRule cvTrue true "r1" 0 emptyEngine rd8).state "r1")
        "r1").sched "r1" =
      hasJob (addRule cvTrue true "r1" 0 emptyEngine rd8).state.sched "r1" :=
  ((C8_double_toggle cvTrue true (addRule cvTrue true "r1" 0 emptyEngine rd8).state "r1").2
    (rd8.toRule "r1" 0) (by decide) (by decide)).2 (by decide)

/-- C9 confirmed: for a threshold rule, a campaign whose insights fetch
returned a non-empty record list where the configured metric field is
absent or unparseable gets metric value 0 — so with operator lt and a
positive threshold it is triggered — while a campaign whose insights
response is the empty list is excluded from the triggered set. -/
theorem C9_missing_metric_counts_as_zero (env : FireEnv) (rule : Rule) (cs : List Campaign)
    (c c2 : Campaign) (m : String) (t : Rat) (r : InsightsRecord) (recs : List InsightsRecord)
    (htype : rule.trigger.type = "threshold")
    (hm : rule.trigger.metric = some m) (hm0 : ¬ m = "")
    (hop : rule.trigger.operator = some "lt") (hval : rule.trigger.value = some t)
    (ht : 0 < t)
    (hins : env.insights c.id = Except.ok (r :: recs))
    (hfield : List.lookup m r = none ∨ List.lookup m r = some none)
    (hmem : c ∈ cs) (hpass : matchesConditions rule.conditions c = true)
    (hins2 : env.insights c2.id = Except.ok []) :
    metricValue r m = 0 ∧
    c ∈ triggeredCampaigns env rule (cs.filter (matchesConditions rule.conditions)) ∧
    ¬ c2 ∈ triggeredCampaigns env rule (cs.filter (matchesConditions rule.conditions)) := by
  have hact : thresholdActive rule.trigger = true := by
    simp [thresholdActive, htype, hm, truthyStr, hm0]
  have hmv : metricValue r m = 0 := by
    rcases hfield with h | h <;> simp [metricValue, h]
  refine ⟨hmv, ?_, ?_⟩
  · rw [triggeredCampaigns, if_pos hact]
    have hct : campaignTriggered env rule c = true := by
      rw [campaignTriggered, hins]
      simp [hm, hop, hval, checkThresholdOpt, checkThreshold, hmv, ht]
    rw [List.mem_filter, List.mem_filter]
    simp [hmem, hpass, hct]
  · rw [triggeredCampaigns, if_pos hact]
    intro hmem2
    have hct2 := (List.mem_filter.mp hmem2).2
    rw [campaignTriggered, hins2] at hct2
    exact Bool.noConfusion hct2

/-- C9 witness: the theorem applied to a rule watching metric ctr with
operator lt and threshold 10, one campaign whose single insights record
lacks the ctr field (metric value 0, triggered) and one whose insights list
is empty (excluded). -/
theorem C9_missing_metric_counts_as_zero_witness :
    camp9 ∈ triggeredCampaigns env9 rule9 ([camp9, camp9b].filter (matchesConditions rule9.conditions)) ∧
    ¬ camp9b ∈ triggeredCampaigns env9 rule9 ([camp9, camp9b].filter (matchesConditions rule9.conditions)) := by
  have h := C9_missing_metric_counts_as_zero env9 rule9 [camp9, camp9b] camp9 camp9b "ctr" 10
    [("spend", some 3)] [] rfl rfl (by decide) rfl rfl (by decide) rfl (Or.inl (by decide))
    (by decide) (by decide) rfl
  exact ⟨h.2.1, h.2.2⟩

/-- C10 confirmed: getRulesForAccount returns exactly the rules whose stored
accountId equals the argument or equals act_ prepended to the argument, and
as a state transformer it leaves the engine state — in particular the rule
map — unchanged. -/
theorem C10_getRulesForAccount_filter (σ : EngineState) (a : String) (r : Rule) :
    (r ∈ getRulesForAccount σ a ↔
      r ∈ mapValues σ.rules ∧ (r.accountId = a ∨ r.accountId = "act_" ++ a)) ∧
    (getRulesForAccountOp σ a).1 = σ := by
  constructor
  · rw [getRulesForAccount, List.mem_filter]
    simp
  · rfl

end Automation
